import Mathlib

/-! Verification model of the resilient completion client and command runner in
`security_suite.py`: the buffered retry loop (`call_deepseek`), the streaming
loop (`stream_call_deepseek`), conversation-history maintenance, tool-name
extraction, availability filtering and execution-mode dispatch, translated into
executable Lean definitions, together with theorems about their behaviour. -/

namespace SecSuite

/-! ### Character-level string primitives

Python string operations used by the source are modelled on `List Char`
(a string is its list of characters); the wrappers below mirror the exact
Python semantics the source relies on. -/

/-- Python `str.strip()` with no argument: remove leading and trailing
whitespace. -/
def pyStrip (s : List Char) : List Char :=
  ((s.dropWhile Char.isWhitespace).reverse.dropWhile Char.isWhitespace).reverse

/-- Python `str.split()` with no argument: split on whitespace runs and drop
the empty pieces. -/
def pySplitWs (s : List Char) : List (List Char) :=
  (s.splitOnP Char.isWhitespace).filter (fun p => p ≠ [])

/-- Python `s.split(sep)` for a one-character separator (empty pieces kept). -/
def pySplitChar (sep : Char) (s : List Char) : List (List Char) :=
  s.splitOn sep

/-- One step bound for `pyReplaceAux`: the fuel starts at the length of the
subject, which suffices because every step consumes at least one character
when the pattern is non-empty. -/
def pyReplaceAux (pat repl : List Char) : Nat → List Char → List Char
  | 0, s => s
  | _ + 1, [] => []
  | fuel + 1, c :: rest =>
      if pat.isPrefixOf (c :: rest) then
        repl ++ pyReplaceAux pat repl fuel ((c :: rest).drop pat.length)
      else
        c :: pyReplaceAux pat repl fuel rest

/-- Python `s.replace(pat, repl)`: replace every occurrence, scanning left to
right and resuming after each replacement (our patterns are non-empty). -/
def pyReplace (pat repl s : List Char) : List Char :=
  pyReplaceAux pat repl s.length s

/-! ### Conversation data model -/

/-- One conversation turn: a `{"role": ..., "content": ...}` message dict. -/
structure Turn where
  role : String
  content : String
deriving DecidableEq

/-- The fields of `DeepSeekSecuritySuite` that the retry loops read:
`conversation_history`, `max_retries` and `timeout` (seconds). -/
structure ClientState where
  history : List Turn
  maxRetries : Nat
  timeoutSec : Nat
deriving DecidableEq

/-- `set_system_prompt` (lines 114-118): replace turn 0 in place when it is a
system turn, otherwise insert a system turn at position 0. -/
def set_system_prompt (history : List Turn) (systemPrompt : String) : List Turn :=
  match history with
  | t :: rest =>
      if t.role = "system" then
        { role := "system", content := systemPrompt } :: rest
      else
        { role := "system", content := systemPrompt } :: t :: rest
  | [] => [{ role := "system", content := systemPrompt }]

/-! ### Failure taxonomy of the buffered call -/

/-- What one `requests.post` attempt of `call_deepseek` produces, as presented
by the environment: a parsed 200 response whose `content` field is present or
absent, an `HTTPError` with a status code, a timeout, a connection error, any
other `RequestException`, a body that fails to parse, or any other exception. -/
inductive AttemptOutcome where
  | success (content : Option String)
  | httpError (status : Nat)
  | timedOut
  | connError
  | otherRequestError
  | parseError
  | otherError
deriving DecidableEq

/-- The kind of the retryable exception remembered in `last_exception`. -/
inductive RetryExc where
  | httpExc (status : Nat)
  | timeoutExc
  | connExc
deriving DecidableEq

/-- The errors `call_deepseek`/`stream_call_deepseek` raise, each constructor
carrying exactly the data its Python message interpolates:
`apiError` is `DeepSeekAPIError` (status and body text only);
`timeoutExhausted` is the `DeepSeekRequestError` naming the attempt count and
the timeout seconds; `connExhausted`/`otherExhausted` are the
`DeepSeekRequestError`s naming the attempt count only; `requestError` is the
non-retryable `DeepSeekRequestError`; `responseError` is
`DeepSeekResponseError`; `genericError` is the blanket `DeepSeekError` wrap. -/
inductive DSError where
  | apiError (status : Nat)
  | timeoutExhausted (attempts : Nat) (timeoutSec : Nat)
  | connExhausted (attempts : Nat)
  | otherExhausted (attempts : Nat)
  | requestError
  | responseError
  | genericError
deriving DecidableEq

/-- Whether an error raised by the suite interpolates the attempt count into
its message (true exactly for the three exhaustion `DeepSeekRequestError`s). -/
def DSError.carriesAttemptCount : DSError → Bool
  | .timeoutExhausted _ _ => true
  | .connExhausted _ => true
  | .otherExhausted _ => true
  | _ => false

/-- Whether an error raised by the suite interpolates the configured timeout
value into its message (true only for the timeout-exhaustion error). -/
def DSError.carriesTimeoutValue : DSError → Bool
  | .timeoutExhausted _ _ => true
  | _ => false

/-- The error built once all retries are exhausted (lines 180-195), from the
last retryable exception observed. -/
def exhaustedError (maxRetries timeoutSec : Nat) : Option RetryExc → DSError
  | some .timeoutExc => .timeoutExhausted maxRetries timeoutSec
  | some .connExc => .connExhausted maxRetries
  | some (.httpExc status) => .apiError status
  | none => .otherExhausted maxRetries

/-- `wait_time = (2 ** attempt) + 1` (line 176), `attempt` 0-indexed. -/
def backoffWait (attempt : Nat) : Nat :=
  2 ^ attempt + 1

/-- Final outcome of a `call_deepseek` invocation: the returned assistant text
or the raised error. -/
inductive CallOutcome where
  | ok (text : String)
  | raised (e : DSError)
deriving DecidableEq

/-- What the retry loop of `call_deepseek` produces: the final outcome, how
many request attempts were made, and the backoff sleeps, in order. -/
structure LoopResult where
  outcome : CallOutcome
  attempts : Nat
  waits : List Nat
deriving DecidableEq

/-- Accounting for one retried attempt (lines 174-178): one more request was
made, and a backoff sleep of `backoffWait attempt` seconds precedes the rest
of the loop exactly when `attempt < max_retries - 1`. -/
def addRetryStep (maxRetries attempt : Nat) (r : LoopResult) : LoopResult :=
  if attempt < maxRetries - 1 then
    { r with attempts := r.attempts + 1, waits := backoffWait attempt :: r.waits }
  else
    { r with attempts := r.attempts + 1 }

/-- How one loop iteration of `call_deepseek` acts on an attempt's outcome:
either the function finishes (returns or raises) or the loop falls through
to the retry footer with a retryable exception recorded. -/
inductive CallStep where
  | finish (r : CallOutcome)
  | retry (exc : RetryExc)
deriving DecidableEq

/-- The `try`/`except` dispatch of `call_deepseek` (lines 139-172): a present
`content` returns; an absent `content` raises `DeepSeekResponseError` inside
the `try`, which the blanket `except Exception` turns into the generic
`DeepSeekError`; a 4xx status other than 429 raises `DeepSeekAPIError` at
once, while 429 and 5xx fall through to the retry footer; timeouts and
connection errors fall through likewise; any other `RequestException` raises
`DeepSeekRequestError`; parse failures raise `DeepSeekResponseError`. -/
def classifyAttempt : AttemptOutcome → CallStep
  | .success (some content) => .finish (.ok content)
  | .success none => .finish (.raised .genericError)
  | .httpError status =>
      if status < 500 ∧ status ≠ 429 then .finish (.raised (.apiError status))
      else .retry (.httpExc status)
  | .timedOut => .retry .timeoutExc
  | .connError => .retry .connExc
  | .otherRequestError => .finish (.raised .requestError)
  | .parseError => .finish (.raised .responseError)
  | .otherError => .finish (.raised .genericError)

/-- The retryable-exception kind an attempt outcome records in
`last_exception`, when it records one. -/
def retryExcOf (o : AttemptOutcome) : Option RetryExc :=
  match classifyAttempt o with
  | .retry exc => some exc
  | .finish _ => none

/-- The retry loop of `call_deepseek` (lines 137-195). `env k` is what the
k-th request attempt produces; `fuel` counts the iterations left, so the
entry point uses `attempt = 0`, `fuel = maxRetries`; running out of fuel is
the fall-through to the exhaustion dispatch at lines 180-195. -/
def callLoop (env : Nat → AttemptOutcome) (maxRetries timeoutSec : Nat) :
    Nat → Nat → Option RetryExc → LoopResult
  | _, 0, lastExc =>
      { outcome := .raised (exhaustedError maxRetries timeoutSec lastExc),
        attempts := 0, waits := [] }
  | attempt, fuel + 1, _ =>
      match classifyAttempt (env attempt) with
      | .finish r => { outcome := r, attempts := 1, waits := [] }
      | .retry exc =>
          addRetryStep maxRetries attempt
            (callLoop env maxRetries timeoutSec (attempt + 1) fuel (some exc))

/-- Result of one `call_deepseek` invocation: the conversation history after
the call, the outcome, the number of request attempts, and the backoff
sleeps. -/
structure CallResult where
  newHistory : List Turn
  outcome : CallOutcome
  attempts : Nat
  waits : List Nat
deriving DecidableEq

/-- `call_deepseek` (lines 123-195). The system prompt is applied first when
it is truthy (Python `if system_prompt:`, so `None` and `""` are skipped);
the user/assistant pair is appended to the history only on success. -/
def call_deepseek (st : ClientState) (message : String)
    (systemPrompt : Option String) (env : Nat → AttemptOutcome) : CallResult :=
  let hist :=
    match systemPrompt with
    | some p => if p = "" then st.history else set_system_prompt st.history p
    | none => st.history
  let r := callLoop env st.maxRetries st.timeoutSec 0 st.maxRetries none
  match r.outcome with
  | .ok content =>
      { newHistory := hist ++ [{ role := "user", content := message },
                               { role := "assistant", content := content }],
        outcome := .ok content, attempts := r.attempts, waits := r.waits }
  | .raised e =>
      { newHistory := hist, outcome := .raised e,
        attempts := r.attempts, waits := r.waits }

/-! ### The streaming call -/

/-- One decoded line of the streamed body (lines 220-234), classified by the
branch of the frame handler it reaches: a falsy line (skipped), a line
without the `data: ` marker (skipped), the `[DONE]` sentinel, a data frame
whose payload is not valid JSON, a valid chunk without truthy delta content,
or a valid chunk carrying delta content `s`. -/
inductive Frame where
  | blank
  | noMarker
  | doneMark
  | malformed
  | noContent
  | chunk (s : String)
deriving DecidableEq

/-- How the body iteration of one stream attempt ends once the delivered
frames are exhausted without a `[DONE]`: the body simply ends, or
`iter_lines` raises a timeout, a connection error, or another
`RequestException`. -/
inductive BodyTail where
  | ended
  | midTimeout
  | midConnError
  | midRequestError
deriving DecidableEq

/-- What the k-th stream attempt presents: a failed `raise_for_status`, a
request-level timeout / connection error / other `RequestException` before
any frame, or a body made of frames followed by a tail. -/
inductive StreamAttempt where
  | httpError (status : Nat)
  | requestTimeout
  | requestConnError
  | otherRequestError
  | body (frames : List Frame) (tail : BodyTail)
deriving DecidableEq

/-- A fragment the generator yields to its consumer: a content chunk, or the
transient-failure notice printed before a retry (line 263), carrying the
1-indexed attempt number and the wait it announces. -/
inductive StreamEvent where
  | chunk (s : String)
  | retryNotice (attemptNumber : Nat) (wait : Nat)
deriving DecidableEq

/-- Outcome of consuming one attempt's frames: the stream completed (by
`[DONE]` or end of body) with the accumulated buffer pieces, a malformed
frame raised `DeepSeekResponseError` (line 234), or the body was interrupted
by a retryable/fatal transport exception; each carries the chunks yielded
before it ended. -/
inductive BodyOutcome where
  | completed (buffer : List String) (events : List StreamEvent)
  | malformedAbort (events : List StreamEvent)
  | cutTimeout (events : List StreamEvent)
  | cutConnError (events : List StreamEvent)
  | cutRequestError (events : List StreamEvent)
deriving DecidableEq

/-- Prepend an already-yielded chunk to a body outcome. -/
def BodyOutcome.withChunk (s : String) : BodyOutcome → BodyOutcome
  | .completed buffer events => .completed (s :: buffer) (.chunk s :: events)
  | .malformedAbort events => .malformedAbort (.chunk s :: events)
  | .cutTimeout events => .cutTimeout (.chunk s :: events)
  | .cutConnError events => .cutConnError (.chunk s :: events)
  | .cutRequestError events => .cutRequestError (.chunk s :: events)

/-- The frame loop of one stream attempt (lines 220-234): content chunks are
appended to the accumulation buffer and yielded; `[DONE]` breaks out; a
malformed payload aborts; other frames are skipped. -/
def consumeFrames (tail : BodyTail) : List Frame → BodyOutcome
  | [] =>
      match tail with
      | .ended => .completed [] []
      | .midTimeout => .cutTimeout []
      | .midConnError => .cutConnError []
      | .midRequestError => .cutRequestError []
  | frame :: rest =>
      match frame with
      | .doneMark => .completed [] []
      | .malformed => .malformedAbort []
      | .chunk s => (consumeFrames tail rest).withChunk s
      | _ => consumeFrames tail rest

/-- Result of one `stream_call_deepseek` invocation, with the fragments the
generator yielded over all attempts. -/
structure StreamResult where
  newHistory : List Turn
  outcome : Option DSError
  attempts : Nat
  waits : List Nat
  events : List StreamEvent
deriving DecidableEq

/-- Accounting for one retried stream attempt (lines 260-265): one more
request was made, and when `attempt < max_retries - 1` the generator yields
the failure notice, sleeps `backoffWait attempt` seconds and resets the
accumulation buffer before the loop continues. `evs` are the fragments the
failed attempt already yielded. -/
def addStreamRetryStep (maxRetries attempt : Nat) (evs : List StreamEvent)
    (r : StreamResult) : StreamResult :=
  if attempt < maxRetries - 1 then
    { r with attempts := r.attempts + 1,
             waits := backoffWait attempt :: r.waits,
             events := evs ++ StreamEvent.retryNotice (attempt + 1) (backoffWait attempt) :: r.events }
  else
    { r with attempts := r.attempts + 1, events := evs ++ r.events }

/-- How one loop iteration of `stream_call_deepseek` acts on an attempt:
the stream completes with a joined buffer, the generator dies on a fatal
error, or the loop falls through to the retry footer; each carries the
fragments the attempt yielded. -/
inductive StreamStep where
  | finishOk (assistantMessage : String) (events : List StreamEvent)
  | finishErr (e : DSError) (events : List StreamEvent)
  | retry (exc : RetryExc) (events : List StreamEvent)
deriving DecidableEq

/-- The `try`/`except` dispatch of one stream attempt (lines 215-258). A
malformed frame's `DeepSeekResponseError` is caught by the blanket
`except Exception` and re-raised as the generic `DeepSeekError` (lines
257-258), so it ends the generator with no retry; the remaining
classification matches the buffered call. -/
def classifyStreamAttempt : StreamAttempt → StreamStep
  | .httpError status =>
      if status < 500 ∧ status ≠ 429 then .finishErr (.apiError status) []
      else .retry (.httpExc status) []
  | .requestTimeout => .retry .timeoutExc []
  | .requestConnError => .retry .connExc []
  | .otherRequestError => .finishErr .requestError []
  | .body frames tail =>
      match consumeFrames tail frames with
      | .completed buffer events => .finishOk (String.join buffer) events
      | .malformedAbort events => .finishErr .genericError events
      | .cutTimeout events => .retry .timeoutExc events
      | .cutConnError events => .retry .connExc events
      | .cutRequestError events => .finishErr .requestError events

/-- The retryable-exception kind a stream attempt records in
`last_exception`, when it records one. -/
def streamRetryExcOf (a : StreamAttempt) : Option RetryExc :=
  match classifyStreamAttempt a with
  | .retry exc _ => some exc
  | _ => none

/-- The retry loop of `stream_call_deepseek` (lines 214-282). Each attempt
starts with an empty accumulation buffer (the initial `[]` at line 211 or
the reset at line 265). On a completed stream the joined buffer is appended
to the history as a user/assistant pair only when non-empty (lines 236-241).
The timeout interpolated into the timeout-exhaustion message is the
streaming timeout `self.timeout * 3` (lines 217, 268-273). -/
def streamLoop (senv : Nat → StreamAttempt) (maxRetries timeoutSec : Nat)
    (hist : List Turn) (message : String) :
    Nat → Nat → Option RetryExc → StreamResult
  | _, 0, lastExc =>
      { newHistory := hist,
        outcome := some (exhaustedError maxRetries (timeoutSec * 3) lastExc),
        attempts := 0, waits := [], events := [] }
  | attempt, fuel + 1, _ =>
      match classifyStreamAttempt (senv attempt) with
      | .finishOk assistantMessage events =>
          if assistantMessage = "" then
            { newHistory := hist, outcome := none,
              attempts := 1, waits := [], events := events }
          else
            { newHistory := hist ++ [{ role := "user", content := message },
                                     { role := "assistant", content := assistantMessage }],
              outcome := none, attempts := 1, waits := [], events := events }
      | .finishErr e events =>
          { newHistory := hist, outcome := some e,
            attempts := 1, waits := [], events := events }
      | .retry exc events =>
          addStreamRetryStep maxRetries attempt events
            (streamLoop senv maxRetries timeoutSec hist message
              (attempt + 1) fuel (some exc))

/-- `stream_call_deepseek` (lines 197-282), with the generator driven to
completion. The truthy system prompt is applied before any attempt, exactly
as in `call_deepseek`. -/
def stream_call_deepseek (st : ClientState) (message : String)
    (systemPrompt : Option String) (senv : Nat → StreamAttempt) : StreamResult :=
  let hist :=
    match systemPrompt with
    | some p => if p = "" then st.history else set_system_prompt st.history p
    | none => st.history
  streamLoop senv st.maxRetries st.timeoutSec hist message 0 st.maxRetries none

/-! ### Tool extraction, availability filtering and command dispatch -/

/-- `extract_tool_from_command` (lines 351-363) on the character list of the
command: first whitespace token; if it contains a `/`, keep only the final
`/`-separated segment; then `replace('.sh', '')` and `replace('.py', '')`. -/
def extractToolChars (command : List Char) : List Char :=
  match pySplitWs (pyStrip command) with
  | [] => []
  | tool :: _ =>
      let tool := if tool.contains '/' then (pySplitChar '/' tool).getLastD tool else tool
      pyReplace [ '.', 'p', 'y'] [] (pyReplace [ '.', 's', 'h'] [] tool)

/-- `extract_tool_from_command` at the `String` boundary. -/
def extract_tool_from_command (command : String) : String :=
  String.mk (extractToolChars command.data)

/-- The guard at lines 374-376: strip the line, and skip it when the
stripped line is empty or starts with `#`. -/
def cleanLine (line : List Char) : Option (List Char) :=
  let cmd := pyStrip line
  if cmd = [] ∨ [ '#'].isPrefixOf cmd then none else some cmd

/-- The loop body of `filter_commands_by_availability` (lines 373-382) over
the already-split lines: strip each line, skip empty and `#`-prefixed lines,
then classify by whether the extracted tool is in the available set. The
pair is (available, unavailable), each in input order. -/
def filterLinesByAvailability (availableTools : List String) :
    List (List Char) → List (List Char) × List (List Char)
  | [] => ([], [])
  | line :: rest =>
      let r := filterLinesByAvailability availableTools rest
      match cleanLine line with
      | none => r
      | some cmd =>
          if String.mk (extractToolChars cmd) ∈ availableTools then
            (cmd :: r.1, r.2)
          else
            (r.1, cmd :: r.2)

/-- `filter_commands_by_availability` (lines 365-384): split the raw command
block on newlines and partition the cleaned lines by tool availability. -/
def filter_commands_by_availability (commands : String)
    (availableTools : List String) : List String × List String :=
  let p := filterLinesByAvailability availableTools (pySplitChar '\n' commands.data)
  (p.1.map String.mk, p.2.map String.mk)

/-- The command list built at line 417: each raw line stripped, kept when the
stripped line is non-empty and the raw line does not start with `#` (the
`startswith` check there is on the unstripped line). -/
def cleanedCommands (commandString : String) : List String :=
  ((pySplitChar '\n' commandString.data).filterMap fun line =>
    if pyStrip line ≠ [] ∧ ¬ [ '#'].isPrefixOf line then some (pyStrip line)
    else none).map String.mk

/-- What `run_generated_commands` (lines 402-438) decides to execute and how
many commands it reports as using unavailable tools. -/
structure RunSelection where
  executed : List String
  skippedCount : Nat
deriving DecidableEq

/-- The selection phase of `run_generated_commands`: empty input runs
nothing; with `check_availability` the available subset replaces the
command list only when it is non-empty (`commands = available_cmds if
available_cmds else commands`, line 438), and the unavailable commands are
reported by their count (line 430). -/
def run_selection (commandString : String) (checkAvailability : Bool)
    (availableTools : List String) : RunSelection :=
  if pyStrip commandString.data = [] then { executed := [], skippedCount := 0 }
  else
    let commands := cleanedCommands commandString
    if commands = [] then { executed := [], skippedCount := 0 }
    else if checkAvailability then
      let p := filter_commands_by_availability commandString availableTools
      { executed := if p.1 = [] then commands else p.1, skippedCount := p.2.length }
    else
      { executed := commands, skippedCount := 0 }

/-- The two execution paths of lines 488-494. -/
inductive ExecMode where
  | shell
  | argv
deriving DecidableEq

/-- The dispatch test at line 490: `'|' in cmd or '>' in cmd or '<' in cmd`
selects `subprocess.run(cmd, shell=True, ...)`, anything else is split with
`shlex.split` and run without a shell. -/
def dispatch_mode (cmd : String) : ExecMode :=
  if cmd.data.contains '|' || cmd.data.contains '>' || cmd.data.contains '<' then
    .shell
  else
    .argv

/-! ### Specification-side definitions used for comparison

These follow the wording of the specification/claims rather than the code,
and are compared with the code-derived definitions in the theorems below. -/

/-- The non-empty, non-comment input lines as `filter_commands_by_availability`
cleans them: each raw line stripped, dropped when empty or starting with
`#`. -/
def availabilityLines (commandString : String) : List (List Char) :=
  (pySplitChar '\n' commandString.data).filterMap cleanLine

/-- Claim C10's first clause: the first whitespace-delimited token of the
command. -/
def firstToken (s : List Char) : List Char :=
  (pySplitWs (pyStrip s)).headD []

/-- Claim C10's second clause: remove any path to keep only the final
`/`-separated segment. -/
def finalSegment (tok : List Char) : List Char :=
  (pySplitChar '/' tok).getLastD tok

/-- What the code actually does to the known script extensions: delete every
occurrence of `.sh`, then every occurrence of `.py`, anywhere in the
token. -/
def stripScriptExtensions (tok : List Char) : List Char :=
  pyReplace [ '.', 'p', 'y'] [] (pyReplace [ '.', 's', 'h'] [] tok)

/-- Tool-name extraction as claim C10 words it: first whitespace token, final
path segment, and the known script suffixes stripped as suffixes. -/
def extractToolSuffixStripped (command : String) : String :=
  String.mk
    (match pySplitWs (pyStrip command.data) with
     | [] => []
     | tool :: _ =>
         let tool := (pySplitChar '/' tool).getLastD tool
         if [ '.', 's', 'h'].isSuffixOf tool then tool.take (tool.length - 3)
         else if [ '.', 'p', 'y'].isSuffixOf tool then tool.take (tool.length - 3)
         else tool)

/-! ### Properties of the buffered retry loop -/

theorem callLoop_succ (env : Nat → AttemptOutcome)
    (maxRetries timeoutSec attempt fuel : Nat) (lastExc : Option RetryExc) :
    callLoop env maxRetries timeoutSec attempt (fuel + 1) lastExc =
      match classifyAttempt (env attempt) with
      | .finish r => { outcome := r, attempts := 1, waits := [] }
      | .retry exc =>
          addRetryStep maxRetries attempt
            (callLoop env maxRetries timeoutSec (attempt + 1) fuel (some exc)) := rfl

theorem addRetryStep_outcome (maxRetries attempt : Nat) (r : LoopResult) :
    (addRetryStep maxRetries attempt r).outcome = r.outcome := by
  unfold addRetryStep; split <;> rfl

theorem addRetryStep_attempts (maxRetries attempt : Nat) (r : LoopResult) :
    (addRetryStep maxRetries attempt r).attempts = r.attempts + 1 := by
  unfold addRetryStep; split <;> rfl

theorem callLoop_attempts_pos (env : Nat → AttemptOutcome)
    (maxRetries timeoutSec attempt fuel : Nat) (lastExc : Option RetryExc)
    (hf : 1 ≤ fuel) :
    1 ≤ (callLoop env maxRetries timeoutSec attempt fuel lastExc).attempts := by
  obtain ⟨f, rfl⟩ : ∃ f, fuel = f + 1 := ⟨fuel - 1, by omega⟩
  cases h : classifyAttempt (env attempt) with
  | finish r => simp [callLoop, h]
  | retry exc => simp [callLoop, h, addRetryStep_attempts]

theorem callLoop_attempts_le (env : Nat → AttemptOutcome)
    (maxRetries timeoutSec : Nat) :
    ∀ fuel attempt lastExc,
      (callLoop env maxRetries timeoutSec attempt fuel lastExc).attempts ≤ fuel := by
  intro fuel
  induction fuel with
  | zero => intro attempt lastExc; simp [callLoop]
  | succ f ih =>
      intro attempt lastExc
      cases h : classifyAttempt (env attempt) with
      | finish r => simp [callLoop, h]
      | retry exc =>
          have := ih (attempt + 1) (some exc)
          simp only [callLoop, h, addRetryStep_attempts]
          omega

/-- In every run, the backoff sleeps are exactly `2^a + 1` for the 0-indexed
attempts `a` that were retried, namely all attempts before the last one. -/
theorem callLoop_waits (env : Nat → AttemptOutcome) (maxRetries timeoutSec : Nat) :
    ∀ fuel attempt lastExc, attempt + fuel = maxRetries →
      (callLoop env maxRetries timeoutSec attempt fuel lastExc).waits =
        (List.range' attempt
          ((callLoop env maxRetries timeoutSec attempt fuel lastExc).attempts - 1)).map
          backoffWait := by
  intro fuel
  induction fuel with
  | zero => intro attempt lastExc hmr; simp [callLoop]
  | succ f ih =>
      intro attempt lastExc hmr
      cases h : classifyAttempt (env attempt) with
      | finish r => simp [callLoop, h]
      | retry exc =>
          simp only [callLoop, h]
          by_cases hret : attempt < maxRetries - 1
          · have hf1 : 1 ≤ f := by omega
            have hpos := callLoop_attempts_pos env maxRetries timeoutSec
              (attempt + 1) f (some exc) hf1
            have hw := ih (attempt + 1) (some exc) (by omega)
            obtain ⟨a, ha⟩ :
                ∃ a, (callLoop env maxRetries timeoutSec (attempt + 1) f (some exc)).attempts
                  = a + 1 :=
              ⟨(callLoop env maxRetries timeoutSec (attempt + 1) f (some exc)).attempts - 1,
                by omega⟩
            rw [ha] at hw
            simp [addRetryStep, hret, hw, ha, List.range'_succ]
          · have hf0 : f = 0 := by omega
            subst hf0
            simp [callLoop, addRetryStep, hret]

/-- When every attempt fails retryably, the loop runs out of fuel and raises
the exhaustion error built from the last attempt's retryable exception. -/
theorem callLoop_all_retryable (env : Nat → AttemptOutcome)
    (maxRetries timeoutSec : Nat) :
    ∀ fuel attempt lastExc, 1 ≤ fuel →
      (∀ k, k < fuel → (retryExcOf (env (attempt + k))).isSome) →
      (callLoop env maxRetries timeoutSec attempt fuel lastExc).outcome =
        .raised (exhaustedError maxRetries timeoutSec
          (retryExcOf (env (attempt + fuel - 1)))) ∧
      (callLoop env maxRetries timeoutSec attempt fuel lastExc).attempts = fuel := by
  intro fuel
  induction fuel with
  | zero => intro attempt lastExc hf; omega
  | succ f ih =>
      intro attempt lastExc hf hall
      obtain ⟨exc, hexc⟩ : ∃ exc, classifyAttempt (env attempt) = .retry exc := by
        have h0 := hall 0 (by omega)
        rw [Nat.add_zero] at h0
        unfold retryExcOf at h0
        revert h0
        cases hc : classifyAttempt (env attempt) with
        | finish r => intro h0; simp at h0
        | retry exc => intro _; exact ⟨exc, rfl⟩
      have hstep : callLoop env maxRetries timeoutSec attempt (f + 1) lastExc =
          addRetryStep maxRetries attempt
            (callLoop env maxRetries timeoutSec (attempt + 1) f (some exc)) := by
        rw [callLoop_succ, hexc]
      rw [hstep, addRetryStep_outcome, addRetryStep_attempts]
      rcases Nat.eq_zero_or_pos f with rfl | hf'
      · have hlast : retryExcOf (env (attempt + 1 - 1)) = some exc := by
          simp [retryExcOf, hexc]
        rw [hlast]
        simp [callLoop]
      · have ihs := ih (attempt + 1) (some exc) (by omega) (by
          intro k hk
          have := hall (k + 1) (by omega)
          rwa [show attempt + (k + 1) = attempt + 1 + k by omega] at this)
        have hidx : attempt + 1 + f - 1 = attempt + (f + 1) - 1 := by omega
        rw [hidx] at ihs
        exact ⟨ihs.1, by omega⟩

/-- When the first `N` attempts fail retryably and attempt `N` finishes, the
loop finishes with attempt `N`'s outcome after `N + 1` requests. -/
theorem callLoop_finishes_after (env : Nat → AttemptOutcome)
    (maxRetries timeoutSec : Nat) (r : CallOutcome) :
    ∀ N fuel attempt lastExc, N < fuel →
      (∀ k, k < N → (retryExcOf (env (attempt + k))).isSome) →
      classifyAttempt (env (attempt + N)) = .finish r →
      (callLoop env maxRetries timeoutSec attempt fuel lastExc).outcome = r ∧
      (callLoop env maxRetries timeoutSec attempt fuel lastExc).attempts = N + 1 := by
  intro N
  induction N with
  | zero =>
      intro fuel attempt lastExc hNf hfail hfin
      obtain ⟨f, rfl⟩ : ∃ f, fuel = f + 1 := ⟨fuel - 1, by omega⟩
      rw [Nat.add_zero] at hfin
      simp [callLoop, hfin]
  | succ n ih =>
      intro fuel attempt lastExc hNf hfail hfin
      obtain ⟨f, rfl⟩ : ∃ f, fuel = f + 1 := ⟨fuel - 1, by omega⟩
      obtain ⟨exc, hexc⟩ : ∃ exc, classifyAttempt (env attempt) = .retry exc := by
        have h0 := hfail 0 (by omega)
        rw [Nat.add_zero] at h0
        unfold retryExcOf at h0
        revert h0
        cases hc : classifyAttempt (env attempt) with
        | finish r => intro h0; simp at h0
        | retry exc => intro _; exact ⟨exc, rfl⟩
      have ihs := ih f (attempt + 1) (some exc) (by omega) (by
          intro k hk
          have := hfail (k + 1) (by omega)
          rwa [show attempt + (k + 1) = attempt + 1 + k by omega] at this) (by
          rwa [show attempt + 1 + n = attempt + (n + 1) by omega])
      simp only [callLoop, hexc, addRetryStep_outcome, addRetryStep_attempts]
      exact ⟨ihs.1, by omega⟩

/-! ### Properties of the streaming retry loop -/

theorem streamLoop_succ (senv : Nat → StreamAttempt) (maxRetries timeoutSec : Nat)
    (hist : List Turn) (message : String) (attempt fuel : Nat)
    (lastExc : Option RetryExc) :
    streamLoop senv maxRetries timeoutSec hist message attempt (fuel + 1) lastExc =
      match classifyStreamAttempt (senv attempt) with
      | .finishOk assistantMessage events =>
          if assistantMessage = "" then
            { newHistory := hist, outcome := none,
              attempts := 1, waits := [], events := events }
          else
            { newHistory := hist ++ [{ role := "user", content := message },
                                     { role := "assistant", content := assistantMessage }],
              outcome := none, attempts := 1, waits := [], events := events }
      | .finishErr e events =>
          { newHistory := hist, outcome := some e,
            attempts := 1, waits := [], events := events }
      | .retry exc events =>
          addStreamRetryStep maxRetries attempt events
            (streamLoop senv maxRetries timeoutSec hist message
              (attempt + 1) fuel (some exc)) := rfl

theorem addStreamRetryStep_newHistory (maxRetries attempt : Nat)
    (evs : List StreamEvent) (r : StreamResult) :
    (addStreamRetryStep maxRetries attempt evs r).newHistory = r.newHistory := by
  unfold addStreamRetryStep; split <;> rfl

theorem addStreamRetryStep_outcome (maxRetries attempt : Nat)
    (evs : List StreamEvent) (r : StreamResult) :
    (addStreamRetryStep maxRetries attempt evs r).outcome = r.outcome := by
  unfold addStreamRetryStep; split <;> rfl

theorem addStreamRetryStep_attempts (maxRetries attempt : Nat)
    (evs : List StreamEvent) (r : StreamResult) :
    (addStreamRetryStep maxRetries attempt evs r).attempts = r.attempts + 1 := by
  unfold addStreamRetryStep; split <;> rfl

theorem addStreamRetryStep_waits (maxRetries attempt : Nat)
    (evs : List StreamEvent) (r : StreamResult) :
    (addStreamRetryStep maxRetries attempt evs r).waits =
      if attempt < maxRetries - 1 then backoffWait attempt :: r.waits else r.waits := by
  unfold addStreamRetryStep; split <;> simp_all

theorem streamLoop_attempts_pos (senv : Nat → StreamAttempt)
    (maxRetries timeoutSec : Nat) (hist : List Turn) (message : String)
    (attempt fuel : Nat) (lastExc : Option RetryExc) (hf : 1 ≤ fuel) :
    1 ≤ (streamLoop senv maxRetries timeoutSec hist message attempt fuel lastExc).attempts := by
  obtain ⟨f, rfl⟩ : ∃ f, fuel = f + 1 := ⟨fuel - 1, by omega⟩
  rw [streamLoop_succ]
  cases h : classifyStreamAttempt (senv attempt) with
  | finishOk a events => dsimp only; split <;> simp
  | finishErr e events => simp
  | retry exc events => simp [addStreamRetryStep_attempts]

/-- In every streamed run, the backoff sleeps are exactly `2^a + 1` for the
0-indexed attempts `a` that were retried, namely all attempts before the
last one. -/
theorem streamLoop_waits (senv : Nat → StreamAttempt) (maxRetries timeoutSec : Nat)
    (hist : List Turn) (message : String) :
    ∀ fuel attempt lastExc, attempt + fuel = maxRetries →
      (streamLoop senv maxRetries timeoutSec hist message attempt fuel lastExc).waits =
        (List.range' attempt
          ((streamLoop senv maxRetries timeoutSec hist message attempt fuel lastExc).attempts
            - 1)).map backoffWait := by
  intro fuel
  induction fuel with
  | zero => intro attempt lastExc hmr; simp [streamLoop]
  | succ f ih =>
      intro attempt lastExc hmr
      rw [streamLoop_succ]
      cases h : classifyStreamAttempt (senv attempt) with
      | finishOk a events => dsimp only; split <;> simp
      | finishErr e events => simp
      | retry exc events =>
          dsimp only
          rw [addStreamRetryStep_waits, addStreamRetryStep_attempts]
          by_cases hret : attempt < maxRetries - 1
          · have hf1 : 1 ≤ f := by omega
            have hpos := streamLoop_attempts_pos senv maxRetries timeoutSec hist message
              (attempt + 1) f (some exc) hf1
            have hw := ih (attempt + 1) (some exc) (by omega)
            obtain ⟨a, ha⟩ :
                ∃ a, (streamLoop senv maxRetries timeoutSec hist message
                  (attempt + 1) f (some exc)).attempts = a + 1 :=
              ⟨(streamLoop senv maxRetries timeoutSec hist message
                  (attempt + 1) f (some exc)).attempts - 1, by omega⟩
            rw [ha] at hw
            simp [hret, hw, ha, List.range'_succ]
          · have hf0 : f = 0 := by omega
            subst hf0
            simp [streamLoop, hret]

/-- The streaming loop either leaves the history alone, or it succeeded and
appended exactly one user/assistant pair whose assistant text is
non-empty. -/
theorem streamLoop_history (senv : Nat → StreamAttempt) (maxRetries timeoutSec : Nat)
    (hist : List Turn) (message : String) :
    ∀ fuel attempt lastExc,
      (streamLoop senv maxRetries timeoutSec hist message attempt fuel lastExc).newHistory
          = hist ∨
      ((streamLoop senv maxRetries timeoutSec hist message attempt fuel lastExc).outcome
          = none ∧
        ∃ a, a ≠ "" ∧
          (streamLoop senv maxRetries timeoutSec hist message attempt fuel lastExc).newHistory
            = hist ++ [{ role := "user", content := message },
                       { role := "assistant", content := a }]) := by
  intro fuel
  induction fuel with
  | zero => intro attempt lastExc; left; simp [streamLoop]
  | succ f ih =>
      intro attempt lastExc
      rw [streamLoop_succ]
      cases h : classifyStreamAttempt (senv attempt) with
      | finishOk a events =>
          dsimp only
          by_cases ha : a = ""
          · left; simp [ha]
          · right
            rw [if_neg ha]
            exact ⟨rfl, a, ha, rfl⟩
      | finishErr e events => left; rfl
      | retry exc events =>
          dsimp only
          rw [addStreamRetryStep_newHistory, addStreamRetryStep_outcome]
          exact ih (attempt + 1) (some exc)

/-- A fatal classification of the current attempt ends the whole loop at
once: one request, no backoff, history untouched. -/
theorem streamLoop_fatal (senv : Nat → StreamAttempt) (maxRetries timeoutSec : Nat)
    (hist : List Turn) (message : String) (attempt fuel : Nat)
    (lastExc : Option RetryExc) (e : DSError) (events : List StreamEvent)
    (h : classifyStreamAttempt (senv attempt) = .finishErr e events) :
    streamLoop senv maxRetries timeoutSec hist message attempt (fuel + 1) lastExc =
      { newHistory := hist, outcome := some e,
        attempts := 1, waits := [], events := events } := by
  rw [streamLoop_succ, h]

/-- Hitting a malformed frame before any `[DONE]` aborts the body scan. -/
theorem consumeFrames_malformed (tail : BodyTail) :
    ∀ pre post : List Frame, Frame.doneMark ∉ pre → Frame.malformed ∉ pre →
      ∃ evs, consumeFrames tail (pre ++ Frame.malformed :: post) = .malformedAbort evs := by
  intro pre
  induction pre with
  | nil => intro post _ _; exact ⟨[], rfl⟩
  | cons frame rest ih =>
      intro post hdone hmal
      obtain ⟨evs, hevs⟩ := ih post (by simp at hdone; tauto) (by simp at hmal; tauto)
      cases frame with
      | blank => exact ⟨evs, hevs⟩
      | noMarker => exact ⟨evs, hevs⟩
      | doneMark => simp at hdone
      | malformed => simp at hmal
      | noContent => exact ⟨evs, hevs⟩
      | chunk s =>
          refine ⟨.chunk s :: evs, ?_⟩
          have hc : consumeFrames tail ((Frame.chunk s :: rest) ++ Frame.malformed :: post)
              = (consumeFrames tail (rest ++ Frame.malformed :: post)).withChunk s := rfl
          rw [hc, hevs]
          rfl

/-! ### Bridging the loop results to the API functions -/

/-- The history `call_deepseek` starts from: the system prompt applied when
truthy. -/
def startHistory (st : ClientState) (systemPrompt : Option String) : List Turn :=
  match systemPrompt with
  | some p => if p = "" then st.history else set_system_prompt st.history p
  | none => st.history

theorem call_deepseek_outcome (st : ClientState) (message : String)
    (systemPrompt : Option String) (env : Nat → AttemptOutcome) :
    (call_deepseek st message systemPrompt env).outcome =
      (callLoop env st.maxRetries st.timeoutSec 0 st.maxRetries none).outcome := by
  unfold call_deepseek
  cases h : (callLoop env st.maxRetries st.timeoutSec 0 st.maxRetries none).outcome <;>
    simp [h]

theorem call_deepseek_attempts (st : ClientState) (message : String)
    (systemPrompt : Option String) (env : Nat → AttemptOutcome) :
    (call_deepseek st message systemPrompt env).attempts =
      (callLoop env st.maxRetries st.timeoutSec 0 st.maxRetries none).attempts := by
  unfold call_deepseek
  cases h : (callLoop env st.maxRetries st.timeoutSec 0 st.maxRetries none).outcome <;>
    simp [h]

theorem call_deepseek_waits (st : ClientState) (message : String)
    (systemPrompt : Option String) (env : Nat → AttemptOutcome) :
    (call_deepseek st message systemPrompt env).waits =
      (callLoop env st.maxRetries st.timeoutSec 0 st.maxRetries none).waits := by
  unfold call_deepseek
  cases h : (callLoop env st.maxRetries st.timeoutSec 0 st.maxRetries none).outcome <;>
    simp [h]

theorem call_deepseek_newHistory_raised (st : ClientState) (message : String)
    (systemPrompt : Option String) (env : Nat → AttemptOutcome) (e : DSError)
    (h : (call_deepseek st message systemPrompt env).outcome = .raised e) :
    (call_deepseek st message systemPrompt env).newHistory =
      startHistory st systemPrompt := by
  rw [call_deepseek_outcome] at h
  unfold call_deepseek startHistory
  cases hr : (callLoop env st.maxRetries st.timeoutSec 0 st.maxRetries none).outcome with
  | ok text => rw [hr] at h; cases h
  | raised e' => simp [hr]

theorem call_deepseek_newHistory_ok (st : ClientState) (message : String)
    (systemPrompt : Option String) (env : Nat → AttemptOutcome) (text : String)
    (h : (call_deepseek st message systemPrompt env).outcome = .ok text) :
    (call_deepseek st message systemPrompt env).newHistory =
      startHistory st systemPrompt ++ [{ role := "user", content := message },
                                       { role := "assistant", content := text }] := by
  rw [call_deepseek_outcome] at h
  unfold call_deepseek startHistory
  cases hr : (callLoop env st.maxRetries st.timeoutSec 0 st.maxRetries none).outcome with
  | ok text' => rw [hr] at h; cases h; simp [hr]
  | raised e' => rw [hr] at h; cases h

theorem stream_call_eq (st : ClientState) (message : String)
    (systemPrompt : Option String) (senv : Nat → StreamAttempt) :
    stream_call_deepseek st message systemPrompt senv =
      streamLoop senv st.maxRetries st.timeoutSec (startHistory st systemPrompt)
        message 0 st.maxRetries none := rfl

/-! ### The claims -/

/-- C1: for every HTTP error status returned by the completion endpoint,
`call_deepseek` makes exactly one request attempt when the status is in
[400,499] excluding 429 — classified fatal and raised immediately as
`DeepSeekAPIError` — while a status in [500,599] or equal to 429 is
classified retryable and retried with backoff up to the configured maximum
number of attempts. -/
theorem claim_C1 (st : ClientState) (message : String) (status : Nat)
    (h1 : 1 ≤ st.maxRetries) :
    ((400 ≤ status ∧ status < 500 ∧ status ≠ 429) →
      (call_deepseek st message none fun _ => .httpError status).attempts = 1 ∧
      (call_deepseek st message none fun _ => .httpError status).outcome =
        .raised (.apiError status)) ∧
    (((500 ≤ status ∧ status ≤ 599) ∨ status = 429) →
      (call_deepseek st message none fun _ => .httpError status).attempts =
        st.maxRetries ∧
      (call_deepseek st message none fun _ => .httpError status).outcome =
        .raised (.apiError status) ∧
      (call_deepseek st message none fun _ => .httpError status).waits =
        (List.range (st.maxRetries - 1)).map backoffWait) := by
  constructor
  · rintro ⟨_, h5, h9⟩
    have hfin : classifyAttempt ((fun _ => AttemptOutcome.httpError status) (0 + 0)) =
        .finish (.raised (.apiError status)) := by
      show (if status < 500 ∧ status ≠ 429 then _ else _) = _
      rw [if_pos ⟨h5, h9⟩]
    have h := callLoop_finishes_after (fun _ => .httpError status) st.maxRetries
      st.timeoutSec (.raised (.apiError status)) 0 st.maxRetries 0 none (by omega)
      (by intro k hk; omega) hfin
    rw [call_deepseek_attempts, call_deepseek_outcome]
    exact ⟨h.2, h.1⟩
  · intro hcase
    have hnf : ¬ (status < 500 ∧ status ≠ 429) := by
      rintro ⟨hlt, hne⟩
      rcases hcase with ⟨h5, _⟩ | rfl
      · omega
      · exact hne rfl
    have hall : ∀ k, k < st.maxRetries →
        (retryExcOf ((fun _ => AttemptOutcome.httpError status) k)).isSome := by
      intro k _
      show (retryExcOf (.httpError status)).isSome
      simp only [retryExcOf, classifyAttempt]
      rw [if_neg hnf]
      rfl
    have h := callLoop_all_retryable (fun _ => .httpError status) st.maxRetries
      st.timeoutSec st.maxRetries 0 none h1 (by intro k hk; simpa using hall k hk)
    have hlast : retryExcOf ((fun _ => AttemptOutcome.httpError status)
        (0 + st.maxRetries - 1)) = some (.httpExc status) := by
      show retryExcOf (.httpError status) = _
      simp only [retryExcOf, classifyAttempt]
      rw [if_neg hnf]
    rw [hlast] at h
    have hw := callLoop_waits (fun _ => .httpError status) st.maxRetries st.timeoutSec
      st.maxRetries 0 none (by omega)
    rw [call_deepseek_attempts, call_deepseek_outcome, call_deepseek_waits]
    refine ⟨h.2, h.1, ?_⟩
    rw [hw, h.2, ← List.range_eq_range']

/-- Witness for C1: a 400 response is attempted once; a 500 response is
attempted three times when `max_retries = 3`. -/
theorem claim_C1_witness :
    (call_deepseek ⟨[], 3, 120⟩ ("m") none fun _ => .httpError 400).attempts = 1 ∧
    (call_deepseek ⟨[], 3, 120⟩ ("m") none fun _ => .httpError 500).attempts = 3 := by
  constructor
  · exact ((claim_C1 ⟨[], 3, 120⟩ ("m") 400 (by decide)).1 (by decide)).1
  · exact ((claim_C1 ⟨[], 3, 120⟩ ("m") 500 (by decide)).2 (Or.inl (by decide))).1

/-- C2 counterexample: after three consecutive 503 failures the terminal
error is the `DeepSeekAPIError` built from the response text (line 193),
which interpolates neither the attempt count nor the timeout value, so the
claimed diagnostics are absent; the history is indeed unchanged. -/
theorem claim_C2_counterexample :
    (call_deepseek ⟨[], 3, 120⟩ ("m") none fun _ => .httpError 503).outcome =
      .raised (.apiError 503) ∧
    DSError.carriesAttemptCount (.apiError 503) = false ∧
    DSError.carriesTimeoutValue (.apiError 503) = false ∧
    (call_deepseek ⟨[], 3, 120⟩ ("m") none fun _ => .httpError 503).newHistory = [] := by
  decide

/-- C2 (amended): for every sequence of `maxRetries` consecutive retryable
failures, `call_deepseek` raises a terminal error determined by the kind of
the last failure, and the conversation history is unchanged; the error
carries the attempt count and the timeout value when the last failure is a
request timeout (a connection failure carries the attempt count only, and a
persistent 5xx/429 surfaces as a `DeepSeekAPIError` carrying neither). -/
theorem claim_C2_amended (st : ClientState) (message : String)
    (env : Nat → AttemptOutcome) (h1 : 1 ≤ st.maxRetries)
    (hall : ∀ k, k < st.maxRetries → (retryExcOf (env k)).isSome) :
    (call_deepseek st message none env).attempts = st.maxRetries ∧
    (call_deepseek st message none env).outcome =
      .raised (exhaustedError st.maxRetries st.timeoutSec
        (retryExcOf (env (st.maxRetries - 1)))) ∧
    (call_deepseek st message none env).newHistory = st.history ∧
    (env (st.maxRetries - 1) = .timedOut →
      (call_deepseek st message none env).outcome =
        .raised (.timeoutExhausted st.maxRetries st.timeoutSec) ∧
      DSError.carriesAttemptCount (.timeoutExhausted st.maxRetries st.timeoutSec)
        = true ∧
      DSError.carriesTimeoutValue (.timeoutExhausted st.maxRetries st.timeoutSec)
        = true) := by
  have h := callLoop_all_retryable env st.maxRetries st.timeoutSec st.maxRetries 0 none
    h1 (by intro k hk; simpa using hall k hk)
  rw [show (0 : Nat) + st.maxRetries - 1 = st.maxRetries - 1 by omega] at h
  have hout : (call_deepseek st message none env).outcome =
      .raised (exhaustedError st.maxRetries st.timeoutSec
        (retryExcOf (env (st.maxRetries - 1)))) := by
    rw [call_deepseek_outcome]; exact h.1
  refine ⟨by rw [call_deepseek_attempts]; exact h.2, hout, ?_, ?_⟩
  · exact call_deepseek_newHistory_raised st message none env _ hout
  · intro hlast
    have hre : retryExcOf (env (st.maxRetries - 1)) = some .timeoutExc := by
      rw [hlast]; rfl
    rw [hre] at hout
    exact ⟨hout, rfl, rfl⟩

/-- Witness for C2 (amended): three consecutive timeouts with
`max_retries = 3`, `timeout = 120`. -/
theorem claim_C2_amended_witness :
    (call_deepseek ⟨[], 3, 120⟩ ("m") none fun _ => .timedOut).outcome =
      .raised (.timeoutExhausted 3 120) ∧
    (call_deepseek ⟨[], 3, 120⟩ ("m") none fun _ => .timedOut).newHistory = [] := by
  have h := claim_C2_amended ⟨[], 3, 120⟩ ("m") (fun _ => .timedOut) (by decide)
    (fun _ _ => rfl)
  exact ⟨(h.2.2.2 rfl).1, h.2.2.1⟩

/-- C3: for every sequence of `N` retryable failures with `N < maxRetries`
followed by a response whose content is present, `call_deepseek` succeeds on
attempt `N + 1`, returns the assistant text, and the history gains exactly
the (user, assistant) pair, appended in that order. -/
theorem claim_C3 (st : ClientState) (message text : String)
    (env : Nat → AttemptOutcome) (N : Nat) (hN : N < st.maxRetries)
    (hfail : ∀ k, k < N → (retryExcOf (env k)).isSome)
    (hsucc : env N = .success (some text)) :
    (call_deepseek st message none env).outcome = .ok text ∧
    (call_deepseek st message none env).attempts = N + 1 ∧
    (call_deepseek st message none env).newHistory =
      st.history ++ [{ role := "user", content := message },
                     { role := "assistant", content := text }] := by
  have hfin : classifyAttempt (env (0 + N)) = .finish (.ok text) := by
    rw [Nat.zero_add, hsucc]; rfl
  have h := callLoop_finishes_after env st.maxRetries st.timeoutSec (.ok text) N
    st.maxRetries 0 none hN (by intro k hk; simpa using hfail k hk) hfin
  have hok : (call_deepseek st message none env).outcome = .ok text := by
    rw [call_deepseek_outcome]; exact h.1
  refine ⟨hok, by rw [call_deepseek_attempts]; exact h.2, ?_⟩
  rw [call_deepseek_newHistory_ok st message none env text hok]
  rfl

/-- Witness for C3: one timeout followed by a successful response. -/
theorem claim_C3_witness :
    (call_deepseek ⟨[], 3, 120⟩ ("q") none
      fun k => if k = 0 then .timedOut else .success (some "hi")).outcome = .ok "hi" ∧
    (call_deepseek ⟨[], 3, 120⟩ ("q") none
      fun k => if k = 0 then .timedOut else .success (some "hi")).attempts = 2 ∧
    (call_deepseek ⟨[], 3, 120⟩ ("q") none
      fun k => if k = 0 then .timedOut else .success (some "hi")).newHistory =
      [{ role := "user", content := "q" }, { role := "assistant", content := "hi" }] := by
  have h := claim_C3 ⟨[], 3, 120⟩ ("q") ("hi")
    (fun k => if k = 0 then .timedOut else .success (some "hi")) 1 (by decide)
    (fun k hk => by
      have hk0 : k = 0 := by omega
      subst hk0
      rfl)
    (by decide)
  exact ⟨h.1, h.2.1, by rw [h.2.2]; rfl⟩

/-- Specialization of `stream_call_eq` to a missing system prompt. -/
theorem stream_call_none (st : ClientState) (message : String)
    (senv : Nat → StreamAttempt) :
    stream_call_deepseek st message none senv =
      streamLoop senv st.maxRetries st.timeoutSec st.history message
        0 st.maxRetries none := rfl

/-- Specialization of `stream_call_eq` to a truthy system prompt. -/
theorem stream_call_some (st : ClientState) (message p : String)
    (senv : Nat → StreamAttempt) (hp : p ≠ "") :
    stream_call_deepseek st message (some p) senv =
      streamLoop senv st.maxRetries st.timeoutSec (set_system_prompt st.history p)
        message 0 st.maxRetries none := by
  unfold stream_call_deepseek
  dsimp only
  rw [if_neg hp]

/-- C4 counterexample: a malformed frame on the first stream attempt kills
the generator at once — one attempt, no backoff, a fatal `DeepSeekError` —
even though `max_retries = 3` leaves retries unexhausted, so no retry is
attempted, contrary to the claim. -/
theorem claim_C4_counterexample :
    (stream_call_deepseek ⟨[], 3, 120⟩ ("q") none
      fun _ => .body [Frame.chunk "par", Frame.malformed] .ended).attempts = 1 ∧
    (stream_call_deepseek ⟨[], 3, 120⟩ ("q") none
      fun _ => .body [Frame.chunk "par", Frame.malformed] .ended).waits = [] ∧
    (stream_call_deepseek ⟨[], 3, 120⟩ ("q") none
      fun _ => .body [Frame.chunk "par", Frame.malformed] .ended).outcome =
      some .genericError ∧
    (stream_call_deepseek ⟨[], 3, 120⟩ ("q") none
      fun _ => .body [Frame.chunk "par", Frame.malformed] .ended).newHistory = [] := by
  decide

/-- C4 (amended): a malformed streaming frame aborts the current stream
attempt, but it is treated as fatal, not retryable: the raised
`DeepSeekResponseError` is swallowed by the blanket `except Exception` and
re-raised as the generic `DeepSeekError`, ending the generator after a
single attempt with no backoff; the partial buffer is never committed to
the conversation history. -/
theorem claim_C4_amended (st : ClientState) (message : String)
    (senv : Nat → StreamAttempt) (pre post : List Frame) (tail : BodyTail)
    (h1 : 1 ≤ st.maxRetries)
    (h0 : senv 0 = .body (pre ++ Frame.malformed :: post) tail)
    (hdone : Frame.doneMark ∉ pre) (hmal : Frame.malformed ∉ pre) :
    (stream_call_deepseek st message none senv).outcome = some .genericError ∧
    (stream_call_deepseek st message none senv).attempts = 1 ∧
    (stream_call_deepseek st message none senv).newHistory = st.history ∧
    (stream_call_deepseek st message none senv).waits = [] := by
  obtain ⟨evs, hevs⟩ := consumeFrames_malformed tail pre post hdone hmal
  have hcls : classifyStreamAttempt (senv 0) = .finishErr .genericError evs := by
    rw [h0]
    simp only [classifyStreamAttempt, hevs]
  obtain ⟨m, hm⟩ : ∃ m, st.maxRetries = m + 1 := ⟨st.maxRetries - 1, by omega⟩
  rw [stream_call_none, hm,
    streamLoop_fatal senv (m + 1) st.timeoutSec st.history message 0 m none
      .genericError evs hcls]
  exact ⟨rfl, rfl, rfl, rfl⟩

/-- Witness for C4 (amended): one chunk, then a malformed frame. -/
theorem claim_C4_amended_witness :
    (stream_call_deepseek ⟨[], 3, 120⟩ ("w") none
      fun _ => .body [Frame.chunk "pa", Frame.malformed] .ended).outcome =
      some .genericError ∧
    (stream_call_deepseek ⟨[], 3, 120⟩ ("w") none
      fun _ => .body [Frame.chunk "pa", Frame.malformed] .ended).attempts = 1 := by
  have h := claim_C4_amended ⟨[], 3, 120⟩ ("w")
    (fun _ => .body [Frame.chunk "pa", Frame.malformed] .ended)
    [Frame.chunk "pa"] [] .ended (by decide) rfl (by decide) (by decide)
  exact ⟨h.1, h.2.1⟩

/-- When the first `N` stream attempts fail retryably and attempt `N`'s
stream completes with buffer-join `a`, the loop succeeds after `N + 1`
requests and the history gains exactly the pair carrying `a` — the failed
attempts' partial buffers never reach it — unless `a` is empty, in which
case the history is untouched. -/
theorem streamLoop_finishes_after (senv : Nat → StreamAttempt)
    (maxRetries timeoutSec : Nat) (hist : List Turn) (message : String)
    (a : String) (evs : List StreamEvent) :
    ∀ N fuel attempt lastExc, N < fuel →
      (∀ k, k < N → (streamRetryExcOf (senv (attempt + k))).isSome) →
      classifyStreamAttempt (senv (attempt + N)) = .finishOk a evs →
      (streamLoop senv maxRetries timeoutSec hist message attempt fuel lastExc).outcome
          = none ∧
      (streamLoop senv maxRetries timeoutSec hist message attempt fuel lastExc).attempts
          = N + 1 ∧
      (a = "" →
        (streamLoop senv maxRetries timeoutSec hist message attempt fuel lastExc).newHistory
          = hist) ∧
      (a ≠ "" →
        (streamLoop senv maxRetries timeoutSec hist message attempt fuel lastExc).newHistory
          = hist ++ [{ role := "user", content := message },
                     { role := "assistant", content := a }]) := by
  intro N
  induction N with
  | zero =>
      intro fuel attempt lastExc hNf hfail hfin
      obtain ⟨f, rfl⟩ : ∃ f, fuel = f + 1 := ⟨fuel - 1, by omega⟩
      rw [Nat.add_zero] at hfin
      rw [streamLoop_succ, hfin]
      dsimp only
      by_cases ha : a = ""
      · rw [if_pos ha]
        exact ⟨rfl, rfl, fun _ => rfl, fun hne => absurd ha hne⟩
      · rw [if_neg ha]
        exact ⟨rfl, rfl, fun he => absurd he ha, fun _ => rfl⟩
  | succ n ih =>
      intro fuel attempt lastExc hNf hfail hfin
      obtain ⟨f, rfl⟩ : ∃ f, fuel = f + 1 := ⟨fuel - 1, by omega⟩
      obtain ⟨exc, evs0, hexc⟩ :
          ∃ exc evs0, classifyStreamAttempt (senv attempt) = .retry exc evs0 := by
        have h0 := hfail 0 (by omega)
        rw [Nat.add_zero] at h0
        unfold streamRetryExcOf at h0
        revert h0
        cases hc : classifyStreamAttempt (senv attempt) with
        | finishOk b e => intro h0; simp at h0
        | finishErr b e => intro h0; simp at h0
        | retry exc e => intro _; exact ⟨exc, e, rfl⟩
      have ihs := ih f (attempt + 1) (some exc) (by omega) (by
          intro k hk
          have := hfail (k + 1) (by omega)
          rwa [show attempt + (k + 1) = attempt + 1 + k by omega] at this) (by
          rwa [show attempt + 1 + n = attempt + (n + 1) by omega])
      rw [streamLoop_succ, hexc]
      dsimp only
      refine ⟨?_, ?_, ?_, ?_⟩
      · rw [addStreamRetryStep_outcome]
        exact ihs.1
      · rw [addStreamRetryStep_attempts, ihs.2.1]
      · intro ha
        rw [addStreamRetryStep_newHistory]
        exact ihs.2.2.1 ha
      · intro ha
        rw [addStreamRetryStep_newHistory]
        exact ihs.2.2.2 ha

/-- C5: after `N < maxRetries` retryable stream failures, when attempt `N`'s
body completes with accumulated buffer `buffer`, `stream_call_deepseek`
succeeds and appends exactly one (user, assistant) pair whose assistant
content is the joined buffer of that completed attempt — so partial text
from the failed attempts is never committed — and only when that buffer is
non-empty; an empty buffer leaves the history untouched, and any terminally
failed call leaves the history exactly as before. -/
theorem claim_C5 (st : ClientState) (message : String)
    (senv : Nat → StreamAttempt) (N : Nat) (frames : List Frame)
    (tail : BodyTail) (buffer : List String) (events : List StreamEvent)
    (hN : N < st.maxRetries)
    (hfail : ∀ k, k < N → (streamRetryExcOf (senv k)).isSome)
    (hbody : senv N = .body frames tail)
    (hcomp : consumeFrames tail frames = .completed buffer events) :
    (stream_call_deepseek st message none senv).outcome = none ∧
    (stream_call_deepseek st message none senv).attempts = N + 1 ∧
    (String.join buffer ≠ "" →
      (stream_call_deepseek st message none senv).newHistory =
        st.history ++ [{ role := "user", content := message },
                       { role := "assistant", content := String.join buffer }]) ∧
    (String.join buffer = "" →
      (stream_call_deepseek st message none senv).newHistory = st.history) ∧
    (∀ senv2 : Nat → StreamAttempt, ∀ e,
      (stream_call_deepseek st message none senv2).outcome = some e →
      (stream_call_deepseek st message none senv2).newHistory = st.history) := by
  have hcls : classifyStreamAttempt (senv (0 + N)) =
      .finishOk (String.join buffer) events := by
    rw [Nat.zero_add, hbody]
    simp only [classifyStreamAttempt, hcomp]
  have h := streamLoop_finishes_after senv st.maxRetries st.timeoutSec st.history
    message (String.join buffer) events N st.maxRetries 0 none hN
    (by intro k hk; simpa using hfail k hk) hcls
  rw [stream_call_none]
  refine ⟨h.1, h.2.1, fun hne => h.2.2.2 hne, fun he => h.2.2.1 he, ?_⟩
  intro senv2 e he
  rw [stream_call_none] at he ⊢
  rcases streamLoop_history senv2 st.maxRetries st.timeoutSec st.history message
      st.maxRetries 0 none with hh | ⟨hn, _⟩
  · exact hh
  · rw [hn] at he
    cases he

/-- Witness for C5: attempt 0 yields "pa" and dies on a connection error,
attempt 1 completes with buffer ["he", "y"]; exactly "hey" is committed —
the discarded partial "pa" never reaches the history. -/
theorem claim_C5_witness :
    (stream_call_deepseek ⟨[], 3, 120⟩ ("q") none
      fun k => if k = 0 then .body [Frame.chunk "pa"] .midConnError
               else .body [Frame.chunk "he", Frame.chunk "y", Frame.doneMark] .ended).newHistory
      = [{ role := "user", content := "q" },
         { role := "assistant", content := "hey" }] ∧
    (stream_call_deepseek ⟨[], 3, 120⟩ ("q") none
      fun k => if k = 0 then .body [Frame.chunk "pa"] .midConnError
               else .body [Frame.chunk "he", Frame.chunk "y", Frame.doneMark] .ended).attempts
      = 2 := by
  have h := claim_C5 ⟨[], 3, 120⟩ ("q")
    (fun k => if k = 0 then .body [Frame.chunk "pa"] .midConnError
              else .body [Frame.chunk "he", Frame.chunk "y", Frame.doneMark] .ended)
    1 [Frame.chunk "he", Frame.chunk "y", Frame.doneMark] .ended
    (["he", "y"]) ([.chunk "he", .chunk "y"])
    (by decide)
    (fun k hk => by
      have hk0 : k = 0 := by omega
      subst hk0
      rfl)
    rfl rfl
  refine ⟨?_, h.2.1⟩
  have hne := h.2.2.1 (by decide)
  rw [hne]
  decide

/-- C7 counterexample: the code guards the system prompt with Python
truthiness (`if system_prompt:`), so the non-`None` empty prompt is never
applied: the failing call leaves the history empty even though
`set_system_prompt` would have inserted a system turn at position 0. -/
theorem claim_C7_counterexample :
    (call_deepseek ⟨[], 1, 120⟩ ("m") (some "") fun _ => .timedOut).outcome =
      .raised (.timeoutExhausted 1 120) ∧
    (call_deepseek ⟨[], 1, 120⟩ ("m") (some "") fun _ => .timedOut).newHistory = [] ∧
    set_system_prompt [] "" = [{ role := "system", content := "" }] := by
  decide

/-- C7 (amended): when `call_deepseek` or `stream_call_deepseek` is invoked
with a non-`None`, non-empty system prompt, `set_system_prompt` is applied
before any request attempt, so a failing call still returns a history whose
system turn was mutated: turn 0 replaced in place when it was a system
turn (same length), otherwise a system turn inserted at position 0 (length
grows by one). -/
theorem claim_C7_amended (st : ClientState) (message p : String)
    (env : Nat → AttemptOutcome) (senv : Nat → StreamAttempt) (hp : p ≠ "") :
    (∀ e, (call_deepseek st message (some p) env).outcome = .raised e →
      (call_deepseek st message (some p) env).newHistory =
        set_system_prompt st.history p) ∧
    (∀ e, (stream_call_deepseek st message (some p) senv).outcome = some e →
      (stream_call_deepseek st message (some p) senv).newHistory =
        set_system_prompt st.history p) ∧
    (∀ t rest, st.history = t :: rest → t.role = "system" →
      set_system_prompt st.history p = { role := "system", content := p } :: rest ∧
      (set_system_prompt st.history p).length = st.history.length) ∧
    ((∀ t rest, st.history = t :: rest → t.role ≠ "system") →
      set_system_prompt st.history p =
        { role := "system", content := p } :: st.history ∧
      (set_system_prompt st.history p).length = st.history.length + 1) := by
  refine ⟨?_, ?_, ?_, ?_⟩
  · intro e he
    have h := call_deepseek_newHistory_raised st message (some p) env e he
    rw [h]
    simp only [startHistory]
    rw [if_neg hp]
  · intro e he
    rw [stream_call_some st message p senv hp] at he ⊢
    rcases streamLoop_history senv st.maxRetries st.timeoutSec
        (set_system_prompt st.history p) message st.maxRetries 0 none with
      h | ⟨hn, _⟩
    · exact h
    · rw [hn] at he
      cases he
  · intro t rest hh hrole
    rw [hh]
    simp only [set_system_prompt]
    rw [if_pos hrole]
    exact ⟨rfl, rfl⟩
  · intro hns
    cases hh : st.history with
    | nil => exact ⟨rfl, rfl⟩
    | cons t rest =>
        have hr := hns t rest hh
        simp only [set_system_prompt]
        rw [if_neg hr]
        constructor
        · rfl
        · rfl

/-- Witness for C7 (amended): a failing call with prompt "sp" still inserts
the system turn. -/
theorem claim_C7_amended_witness :
    (call_deepseek ⟨[], 1, 120⟩ ("m") (some "sp") fun _ => .timedOut).newHistory =
      [{ role := "system", content := "sp" }] := by
  have h := (claim_C7_amended ⟨[], 1, 120⟩ ("m") ("sp") (fun _ => .timedOut)
    (fun _ => .requestTimeout) (by decide)).1 (.timeoutExhausted 1 120) (by decide)
  rw [h]
  decide

/-- C6: in both `call_deepseek` and `stream_call_deepseek`, the backoff
waits of a run are `2^0+1, 2^1+1, ...` in order — so the wait before retry
attempt k (1-indexed) is `2^(k-1) + 1` seconds — and there are exactly
`attempts - 1` of them, so no backoff wait follows the final failed
attempt. -/
theorem claim_C6 (st : ClientState) (message : String)
    (env : Nat → AttemptOutcome) (senv : Nat → StreamAttempt) :
    (call_deepseek st message none env).waits =
      (List.range ((call_deepseek st message none env).attempts - 1)).map
        backoffWait ∧
    (call_deepseek st message none env).waits.length =
      (call_deepseek st message none env).attempts - 1 ∧
    (stream_call_deepseek st message none senv).waits =
      (List.range ((stream_call_deepseek st message none senv).attempts - 1)).map
        backoffWait ∧
    (stream_call_deepseek st message none senv).waits.length =
      (stream_call_deepseek st message none senv).attempts - 1 := by
  have hc := callLoop_waits env st.maxRetries st.timeoutSec st.maxRetries 0 none
    (by omega)
  have hcw : (call_deepseek st message none env).waits =
      (List.range ((call_deepseek st message none env).attempts - 1)).map
        backoffWait := by
    rw [call_deepseek_waits, call_deepseek_attempts, hc, ← List.range_eq_range']
  have hs := streamLoop_waits senv st.maxRetries st.timeoutSec st.history message
    st.maxRetries 0 none (by omega)
  have hsw : (stream_call_deepseek st message none senv).waits =
      (List.range ((stream_call_deepseek st message none senv).attempts - 1)).map
        backoffWait := by
    rw [stream_call_none, hs, ← List.range_eq_range']
  refine ⟨hcw, ?_, hsw, ?_⟩
  · rw [hcw]
    simp
  · rw [hsw]
    simp

/-- C8: the command runner dispatches through shell-interpreting execution
if and only if the command text contains `|`, `<` or `>`; otherwise it is
split into argv tokens and run without a shell. -/
theorem claim_C8 (cmd : String) :
    (dispatch_mode cmd = .shell ↔
      '|' ∈ cmd.data ∨ '<' ∈ cmd.data ∨ '>' ∈ cmd.data) ∧
    (dispatch_mode cmd = .argv ↔
      ¬ ('|' ∈ cmd.data ∨ '<' ∈ cmd.data ∨ '>' ∈ cmd.data)) := by
  unfold dispatch_mode
  by_cases h : '|' ∈ cmd.data ∨ '<' ∈ cmd.data ∨ '>' ∈ cmd.data
  · have hb : (cmd.data.contains '|' || cmd.data.contains '>'
        || cmd.data.contains '<') = true := by
      simp only [Bool.or_eq_true, List.contains, List.elem_iff]
      tauto
    rw [if_pos hb]
    refine ⟨⟨fun _ => h, fun _ => rfl⟩, ⟨fun hargv => ?_, fun hn => absurd h hn⟩⟩
    exact absurd hargv (by decide)
  · have hb : ¬ ((cmd.data.contains '|' || cmd.data.contains '>'
        || cmd.data.contains '<') = true) := by
      simp only [Bool.or_eq_true, List.contains, List.elem_iff]
      tauto
    rw [if_neg hb]
    refine ⟨⟨fun hsh => ?_, fun hmem => absurd hmem h⟩, ⟨fun _ => h, fun _ => rfl⟩⟩
    exact absurd hsh (by decide)

/-- Witness for C8: a piped command goes through the shell, a plain one
through argv. -/
theorem claim_C8_witness :
    dispatch_mode ("cat a | grep b") = .shell ∧
    dispatch_mode ("nmap -sV x") = .argv := by
  constructor
  · exact (claim_C8 ("cat a | grep b")).1.mpr (Or.inl (by decide))
  · exact (claim_C8 ("nmap -sV x")).2.mpr (by decide)

/-- The one-pass loop of `filter_commands_by_availability` computes the same
pair as filtering the cleaned lines twice, preserving input order. -/
theorem filterLines_partition (availableTools : List String)
    (lines : List (List Char)) :
    filterLinesByAvailability availableTools lines =
      ((lines.filterMap cleanLine).filter
        (fun cmd => decide (String.mk (extractToolChars cmd) ∈ availableTools)),
       (lines.filterMap cleanLine).filter
        (fun cmd => ! decide (String.mk (extractToolChars cmd) ∈ availableTools))) := by
  induction lines with
  | nil => rfl
  | cons line rest ih =>
      cases hc : cleanLine line with
      | none => simp [filterLinesByAvailability, hc, List.filterMap_cons, ih]
      | some cmd =>
          by_cases hm : String.mk (extractToolChars cmd) ∈ availableTools
          · simp [filterLinesByAvailability, hc, List.filterMap_cons, ih, hm]
          · simp [filterLinesByAvailability, hc, List.filterMap_cons, ih, hm]

/-- C9: with availability checking on, the non-empty, non-comment input
lines are partitioned, in input order, into available and unavailable
commands by extracted tool name; when the available subset is non-empty
exactly it proceeds to execution and the unavailable commands are counted
as skipped, and when it is empty all original commands proceed. In
particular, for available tools {nmap, httpx} and the four-line input, the
nmap and httpx lines execute and 2 commands are skipped. -/
theorem claim_C9 (commandString : String) (availableTools : List String)
    (hblank : pyStrip commandString.data ≠ [])
    (hcmds : cleanedCommands commandString ≠ []) :
    (filter_commands_by_availability commandString availableTools).1 =
      ((availabilityLines commandString).filter
        (fun cmd => decide (String.mk (extractToolChars cmd) ∈ availableTools))).map
        String.mk ∧
    (filter_commands_by_availability commandString availableTools).2 =
      ((availabilityLines commandString).filter
        (fun cmd => ! decide (String.mk (extractToolChars cmd) ∈ availableTools))).map
        String.mk ∧
    ((filter_commands_by_availability commandString availableTools).1 ≠ [] →
      run_selection commandString true availableTools =
        { executed := (filter_commands_by_availability commandString availableTools).1,
          skippedCount :=
            (filter_commands_by_availability commandString availableTools).2.length }) ∧
    ((filter_commands_by_availability commandString availableTools).1 = [] →
      run_selection commandString true availableTools =
        { executed := cleanedCommands commandString,
          skippedCount :=
            (filter_commands_by_availability commandString availableTools).2.length }) ∧
    run_selection ("nmap -sV x\nsubfinder -d example.com\nhttpx -l hosts.txt\nghost-tool run")
        true ["nmap", "httpx"] =
      { executed := ["nmap -sV x", "httpx -l hosts.txt"], skippedCount := 2 } := by
  have hpart := filterLines_partition availableTools
    (pySplitChar '\n' commandString.data)
  have h1 : (filter_commands_by_availability commandString availableTools).1 =
      ((availabilityLines commandString).filter
        (fun cmd => decide (String.mk (extractToolChars cmd) ∈ availableTools))).map
        String.mk := by
    unfold filter_commands_by_availability availabilityLines
    rw [hpart]
  have h2 : (filter_commands_by_availability commandString availableTools).2 =
      ((availabilityLines commandString).filter
        (fun cmd => ! decide (String.mk (extractToolChars cmd) ∈ availableTools))).map
        String.mk := by
    unfold filter_commands_by_availability availabilityLines
    rw [hpart]
  refine ⟨h1, h2, ?_, ?_, by decide⟩
  · intro hne
    unfold run_selection
    rw [if_neg hblank, if_neg hcmds, if_pos rfl]
    dsimp only
    rw [if_neg hne]
  · intro hnil
    unfold run_selection
    rw [if_neg hblank, if_neg hcmds, if_pos rfl]
    dsimp only
    rw [if_pos hnil]

/-- Witness for C9 at the claim's concrete instance. -/
theorem claim_C9_witness :
    run_selection ("nmap -sV x\nsubfinder -d example.com\nhttpx -l hosts.txt\nghost-tool run")
        true ["nmap", "httpx"] =
      { executed := ["nmap -sV x", "httpx -l hosts.txt"], skippedCount := 2 } := by
  have h := claim_C9
    ("nmap -sV x\nsubfinder -d example.com\nhttpx -l hosts.txt\nghost-tool run")
    ["nmap", "httpx"] (by decide) (by decide)
  exact h.2.2.2.2

/-- Splitting on a separator that does not occur returns the whole list, so
taking the last piece gives the list back. -/
theorem pySplitChar_getLastD_of_not_mem (sep : Char) (l : List Char)
    (h : sep ∉ l) :
    (pySplitChar sep l).getLastD l = l := by
  have hs : ∀ m : List Char, sep ∉ m → m.splitOn sep = [m] := by
    intro m
    induction m with
    | nil => intro _; rfl
    | cons b t ih =>
        intro hm
        have hb : sep ∉ t := fun ht => hm (List.mem_cons_of_mem b ht)
        have hbs : (b == sep) = false :=
          beq_eq_false_iff_ne.mpr fun hbe => hm (hbe ▸ List.mem_cons_self b t)
        have ht : t.splitOnP (fun c => c == sep) = [t] := ih hb
        show (b :: t).splitOnP (fun c => c == sep) = [b :: t]
        simp [List.splitOnP_cons, hbs, ht, List.modifyHead]
  show (l.splitOn sep).getLastD l = l
  rw [hs l h]
  rfl

/-- C10 counterexample: on `"my.shell-tool -h"` the code's
`replace('.sh', '')` removes the interior `.sh` occurrence and yields
`"myell-tool"`, while the claim's suffix-stripping description keeps the
token unchanged. -/
theorem claim_C10_counterexample :
    extract_tool_from_command ("my.shell-tool -h") = "myell-tool" ∧
    extractToolSuffixStripped ("my.shell-tool -h") = "my.shell-tool" ∧
    ("myell-tool" : String) ≠ "my.shell-tool" := by
  decide

/-- C10 (amended): `extract_tool_from_command` returns the first
whitespace-delimited token with any path prefix removed (keeping only the
final `/`-separated segment) and with every occurrence of the known script
extension strings `.sh` and `.py` removed — by substring replacement, not
only at the suffix; empty input yields the empty name, and the claim's
example evaluations hold. -/
theorem claim_C10_amended (command : String) :
    extract_tool_from_command command =
      String.mk (stripScriptExtensions (finalSegment (firstToken command.data))) ∧
    extract_tool_from_command ("~/tools/testssl.sh host.com") = "testssl" ∧
    extract_tool_from_command ("nmap -sV x") = "nmap" ∧
    extract_tool_from_command ("") = "" := by
  refine ⟨?_, by decide, by decide, by decide⟩
  unfold extract_tool_from_command extractToolChars firstToken finalSegment
    stripScriptExtensions
  cases hp : pySplitWs (pyStrip command.data) with
  | nil => rfl
  | cons tool rest =>
      dsimp only [List.headD]
      by_cases hc : tool.contains '/'
      · rw [if_pos hc]
      · rw [if_neg hc]
        have hmem : '/' ∉ tool := by
          intro hm
          have he := List.elem_iff.mpr hm
          rw [show List.elem '/' tool = tool.contains '/' from rfl] at he
          exact hc he
        rw [pySplitChar_getLastD_of_not_mem '/' tool hmem]

end SecSuite
